import Mathlib

/-!
# Verification of the receipt-serial / fee-distribution / receipt-rendering core

Shallow embedding of the fee-receipt slice of the school-administration
application:

* `migration/receipt_serial_migration.sql` (backfill of receipt serials),
* `client/src/components/ReceiptDistributionModal.tsx` (distribution
  calculator, validation, print path),
* `client/src/components/Receipt.tsx` (`buildPlainHtml`, `printReceipt`),
* `server/routes.ts` (`GET /api/fees` row mapping).

Monetary values are embedded as rationals (`ℚ`): the source stores amounts
as SQL `decimal(10,2)` and manipulates them as JS numbers, formatting with
`toFixed(2)`.  `toFixed(2)` on the idealized decimal value rounds half
toward `+∞` at the second decimal (ECMA-262 `Number.prototype.toFixed`
picks the larger candidate on ties), which is Mathlib's `round` applied to
`100 * x`.

The amount-in-words conversion (`amountToIndianWords`) and the school
branding object (`schoolConfig`) live in client library files that only
feed opaque strings into the rendered output; they are taken as parameters
(`words : ℚ → String`, `cfg : SchoolConfig`), as is the value of the
client-side fallback counter `nextReceiptSerial()` (`nextSerial : ℕ`).
-/

namespace ERP

/-! ## Decimal semantics -/

/-- Rounding half toward `+∞` on `ℚ`, i.e. `⌊q + 1/2⌋`, written with
`Rat.num`/`Rat.den` so that the kernel can evaluate it.  Agrees with
Mathlib's `round` (`jround_eq_round`). -/
def jround (q : ℚ) : ℤ := (q + 1/2).num / ((q + 1/2).den : ℤ)

/-- Numeric value of JavaScript `+x.toFixed(2)` (idealized decimal
semantics): round half toward `+∞` at two decimals. -/
def round2 (q : ℚ) : ℚ := (jround (q * 100) : ℤ) / 100

/-- JS `String.prototype.padStart(n, c)`. -/
def padStart (s : String) (n : Nat) (c : Char) : String :=
  String.mk (List.replicate (n - s.length) c) ++ s

/-- String produced by JavaScript `x.toFixed(2)` (idealized decimal
semantics, two fractional digits, round half toward `+∞`). -/
def toFixed2 (q : ℚ) : String :=
  let n : ℤ := jround (q * 100)
  if n < 0 then
    "-" ++ toString (n.natAbs / 100) ++ "." ++ padStart (toString (n.natAbs % 100)) 2 '0'
  else
    toString (n.toNat / 100) ++ "." ++ padStart (toString (n.toNat % 100)) 2 '0'

/-! ## Fee categories (ReceiptDistributionModal.tsx)

The modal keys its `amounts` record by the six fixed labels of
`CATEGORY_ORDER`; we embed the keys as the enumeration `Cat` and the
record as a function `Cat → ℚ` holding the parsed numeric amounts
(`parseFloat(amounts[c] || '0') || 0`). -/

inductive Cat
  | admission
  | teaching
  | exam
  | computer
  | development
  | other
  deriving DecidableEq, Fintype

/-- The printed label of each category, as listed in `CATEGORY_ORDER`
(modal lines 11-18) and `DEFAULT_ORDER` (Receipt.tsx lines 308-315). -/
def Cat.label : Cat → String
  | .admission => "Admission Fee"
  | .teaching => "Teaching Fee"
  | .exam => "Exam. Fee"
  | .computer => "Computer Fee"
  | .development => "Development"
  | .other => "Other Fee/Late Fee"

/-- `CATEGORY_ORDER` (ReceiptDistributionModal.tsx lines 11-18). -/
def CATEGORY_ORDER : List Cat :=
  [.admission, .teaching, .exam, .computer, .development, .other]

/-- A `{ label, amount }` receipt line item (`ReceiptItem` in Receipt.tsx). -/
structure ReceiptItem where
  label : String
  amount : ℚ
  deriving DecidableEq

/-- `numericAmounts` (modal line 50):
`CATEGORY_ORDER.map(c => ({ label: c, amount: parseFloat(amounts[c] || '0') || 0 }))`. -/
def numericAmounts (amts : Cat → ℚ) : List ReceiptItem :=
  CATEGORY_ORDER.map fun c => ⟨c.label, amts c⟩

/-- `totalEntered` (modal line 51): `numericAmounts.reduce((s,x) => s + x.amount, 0)`. -/
def totalEntered (amts : Cat → ℚ) : ℚ :=
  (numericAmounts amts).foldl (fun s x => s + x.amount) 0

/-- `diff` (modal line 53): `+(totalEntered - targetTotal).toFixed(2)`. -/
def diffOf (target : ℚ) (amts : Cat → ℚ) : ℚ :=
  round2 (totalEntered amts - target)

/-- `valid` (modal line 54):
`targetTotal > 0 && Math.abs(diff) < 0.01 && numericAmounts.some(n => n.amount > 0)`.
The Print Receipt button is disabled exactly when this is false (line 175). -/
def validB (target : ℚ) (amts : Cat → ℚ) : Bool :=
  decide (0 < target) && decide (|diffOf target amts| < 1/100) &&
    (numericAmounts amts).any fun n => decide (0 < n.amount)

/-- The blocking validation message (modal lines 156-158):
`Difference: {diff > 0 ? '+' : ''}{diff.toFixed(2)}`. -/
def diffDisplay (target : ℚ) (amts : Cat → ℚ) : String :=
  (if 0 < diffOf target amts then "+" else "") ++ toFixed2 (diffOf target amts)

/-- `baseCategories` (modal line 65): the four categories receiving the
even split. -/
def baseCategories : List Cat := [.teaching, .exam, .computer, .development]

/-- `autoDistribute` (modal lines 61-81): `slice = +(remaining / 4).toFixed(2)`;
Teaching/Exam./Computer get `slice`, Development (the last base category)
gets `(remaining - slice * 3).toFixed(2)` to absorb the rounding drift,
Admission and Other are set to `'0'`.  All six categories are overwritten,
so the result does not depend on the previous amounts. -/
def autoDistribute (target : ℚ) : Cat → ℚ :=
  let slice := round2 (target / 4)
  fun c => match c with
  | .teaching => slice
  | .exam => slice
  | .computer => slice
  | .development => round2 (target - slice * 3)
  | .admission => 0
  | .other => 0

/-- `fillRemainingInto` (modal lines 83-89): the sum of the other
categories is subtracted from the transaction amount, floored at zero, and
`(...).toFixed(2)` is written into the chosen category. -/
def fillRemainingInto (target : ℚ) (amts : Cat → ℚ) (l : Cat) : Cat → ℚ :=
  let already := (CATEGORY_ORDER.filter fun c => c ≠ l).foldl (fun s c => s + amts c) 0
  let remaining := max (target - already) 0
  fun c => if c = l then round2 remaining else amts c

/-! ## Receipt-serial backfill (migration/receipt_serial_migration.sql)

```sql
WITH ordered AS (
  SELECT id, ROW_NUMBER() OVER (ORDER BY payment_date, id) AS rn
  FROM fee_transactions
  WHERE receipt_serial IS NULL
)
UPDATE fee_transactions f
SET receipt_serial = ordered.rn
FROM ordered
WHERE f.id = ordered.id;
```

A `fee_transactions` row is embedded with the three columns the backfill
reads: `id` is the `varchar` primary key, ordered by text comparison,
embedded as `String` with its lexicographic order; `payment_date` is a SQL
`date`, embedded as `ℕ` through the order isomorphism of dates onto day
numbers.  `ROW_NUMBER() OVER (ORDER BY payment_date, id)` over a window
whose rows carry pairwise distinct `id`s (they hold the table's primary
key) equals one plus the number of window rows strictly smaller in the
`(payment_date, id)` lexicographic order. -/

/-- A `fee_transactions` row, restricted to the columns the backfill
touches. -/
structure Tx where
  id : String
  paymentDate : ℕ
  receiptSerial : Option ℕ
  deriving DecidableEq

/-- The `ORDER BY payment_date, id` comparison, strict version. -/
def keyLt (a b : Tx) : Prop :=
  a.paymentDate < b.paymentDate ∨ (a.paymentDate = b.paymentDate ∧ a.id < b.id)

instance (a b : Tx) : Decidable (keyLt a b) := by unfold keyLt; infer_instance

/-- The `ORDER BY payment_date, id` comparison, non-strict, as the Boolean
comparator handed to sorting. -/
def keyLe (a b : Tx) : Bool :=
  decide (a.paymentDate < b.paymentDate) ||
    (decide (a.paymentDate = b.paymentDate) && decide (a.id ≤ b.id))

/-- `WHERE receipt_serial IS NULL`: the backfill window. -/
def nullRows (txs : List Tx) : List Tx :=
  txs.filter fun t => t.receiptSerial.isNone

/-- `ROW_NUMBER() OVER (ORDER BY payment_date, id)` of row `t` within the
null-serial window: one plus the number of window rows before `t` in the
`(payment_date, id)` order (this is the SQL row number whenever the `id`s
are distinct, which the primary key guarantees). -/
def rowNumber (txs : List Tx) (t : Tx) : ℕ :=
  1 + ((nullRows txs).filter fun u => decide (keyLt u t)).length

/-- The backfill `UPDATE`: every row of the window gets its `rn` as
`receipt_serial`; rows outside the window (serial already present) are
untouched. -/
def backfill (txs : List Tx) : List Tx :=
  txs.map fun t =>
    if t.receiptSerial.isNone then { t with receiptSerial := some (rowNumber txs t) } else t

/-- The window rows listed in `ORDER BY payment_date, id` order. -/
def sortedNullRows (txs : List Tx) : List Tx :=
  (nullRows txs).mergeSort keyLe

/-! ## Receipt renderer (Receipt.tsx, `buildPlainHtml` lines 466-518)

`buildPlainHtml` builds the printable HTML string; the `Receipt` React
component (lines 317-404) renders the same data with identical
normalization (`DEFAULT_ORDER` map, computed total, two copies).  The
modelled artifact is the plain-HTML string `printReceipt` actually prints. -/

/-- The student display fields the receipt reads
(`ReceiptProps.student`, Receipt.tsx lines 290-296).  JavaScript treats
the empty string as an absent optional field, so optional `String` fields
are plain strings tested against `""`. -/
structure StudentSnap where
  name : String
  fatherName : String
  grade : String
  «section» : String
  admissionNumber : String
  deriving DecidableEq

/-- `ReceiptProps` (Receipt.tsx lines 289-305). -/
structure ReceiptProps where
  student : StudentSnap
  items : List ReceiptItem
  paymentDate : String
  serial : Option ℕ
  session : Option String
  yearlyFeeAmount : Option ℚ
  paidSoFar : Option ℚ
  remainingFee : Option ℚ

/-- The injected branding configuration (`schoolConfig`): school name,
address line, academic session, logo URL (`""` when absent). -/
structure SchoolConfig where
  name : String
  addressLine : String
  session : String
  logoUrl : String
  deriving DecidableEq

/-- `DEFAULT_ORDER` (Receipt.tsx lines 308-315). -/
def DEFAULT_ORDER : List String :=
  ["Admission Fee", "Teaching Fee", "Exam. Fee", "Computer Fee", "Development",
    "Other Fee/Late Fee"]

/-- The label-to-amount map built by
`props.items.forEach(i => \x7b map[i.label] = i.amount; \x7d)`: later
entries overwrite earlier ones; absent labels are unmapped. -/
def mapOf (items : List ReceiptItem) : String → Option ℚ :=
  items.foldl (fun m i => fun l => if l = i.label then some i.amount else m l) fun _ => none

/-- `ordered` (line 471):
`DEFAULT_ORDER.map(label => (\x7b label, amount: map[label] ?? 0 \x7d))`. -/
def orderedOf (items : List ReceiptItem) : List ReceiptItem :=
  DEFAULT_ORDER.map fun l => ⟨l, (mapOf items l).getD 0⟩

/-- `total` (line 472): `ordered.reduce((s, r) => s + r.amount, 0)`. -/
def totalOf (items : List ReceiptItem) : ℚ :=
  (orderedOf items).foldl (fun s r => s + r.amount) 0

/-- `serial` (line 467):
`String(props.serial ?? nextReceiptSerial()).padStart(4,'0')` — the
persisted serial when present, otherwise the client-side counter. -/
def serialStrOf (p : ReceiptProps) (nextSerial : ℕ) : String :=
  padStart (toString (p.serial.getD nextSerial)) 4 '0'

/-- `sessionValue` (line 468): `props.session || schoolConfig.session`. -/
def sessionValueOf (p : ReceiptProps) (cfg : SchoolConfig) : String :=
  p.session.getD cfg.session

/-- `cls` (line 474): the `Class …`/`Section …` fragments of the student,
joined by a blank, empty fragments dropped. -/
def clsOf (st : StudentSnap) : String :=
  String.intercalate " "
    ((if st.grade ≠ "" then ["Class " ++ st.grade] else []) ++
      (if st.«section» ≠ "" then ["Section " ++ st.«section»] else []))

/-- The amount cell of a line-item row (line 504):
`r.amount ? r.amount.toFixed(2) : ''` — zero renders as a blank cell. -/
def amountCell (a : ℚ) : String :=
  if a = 0 then "" else toFixed2 a

/-- One `<tr>` of the line-items table (line 504), for row index `i`
(zero-based, displayed as `i+1.`). -/
def rowHtml (i : ℕ) (r : ReceiptItem) : String :=
  "<tr><td style=\"border:1px solid #000;text-align:center;padding:4px;\">" ++
    toString (i + 1) ++
    ".</td><td style=\"border:1px solid #000;padding:4px;\">" ++ r.label ++
    "</td><td style=\"border:1px solid #000;text-align:right;padding:4px;\">" ++
    amountCell r.amount ++ "</td></tr>"

/-- `ordered.map((r,i)=>…).join('')` (line 504). -/
def rowsJoined (items : List ReceiptItem) : String :=
  String.join ((orderedOf items).enum.map fun e => rowHtml e.1 e.2)

/-- The computed total row (line 505): numbered after the six items, cell
text `total.toFixed(2)`. -/
def totalRowHtml (items : List ReceiptItem) : String :=
  "<tr style=\"font-weight:600;\"><td style=\"border:1px solid #000;text-align:center;padding:4px;\">" ++
    toString ((orderedOf items).length + 1) ++
    ".</td><td style=\"border:1px solid #000;padding:4px;\">Total Amount</td><td style=\"border:1px solid #000;text-align:right;padding:4px;\">" ++
    toFixed2 (totalOf items) ++ "</td></tr>"

/-- The optional yearly/paid/remaining summary box (lines 476-477 and
509-511): present exactly when both `yearlyFeeAmount` and `paidSoFar` are
numbers; `remaining` falls back to `yearly - paid`; negative remaining is
shown as `(Over)` with its absolute value, color-coded. -/
def summaryHtml (p : ReceiptProps) : String :=
  match p.yearlyFeeAmount, p.paidSoFar with
  | some y, some pd =>
    let remaining := p.remainingFee.getD (y - pd)
    "<div style=\"font-size:10px;border:1px solid #000;padding:3px 6px;margin-bottom:8px;\">\n\t\t\t<strong>Yearly:</strong> ₹" ++
      toFixed2 y ++ " • <strong>Total Paid:</strong> ₹" ++ toFixed2 pd ++
      " • <strong>Remaining:</strong> <span style=\"color:" ++
      (if remaining ≤ 0 then "#0a7a0a" else "#b10000") ++ ";\">₹" ++
      (if 0 ≤ remaining then toFixed2 remaining else toFixed2 |remaining| ++ " (Over)") ++
      "</span>\n\t\t</div>"
  | _, _ => ""

/-- The template text of one copy block before the copy label: everything
of `rowsHtml` (lines 478-486) up to `(${copy}`. -/
def rowsHtmlPre (cfg : SchoolConfig) : String :=
  "\n\t<div style=\"border:1px solid #000;margin:0 0 4mm 0;font-size:10px;font-family:serif;box-sizing:border-box;padding:4mm;height:134mm;overflow:hidden;\">\n\t\t<div style=\"text-align:center;margin-bottom:6px;\">\n\t\t\t<div style=\"display:flex;align-items:center;justify-content:center;gap:12px;min-height:54px;margin-bottom:2px;\">\n\t\t\t\t" ++
    (if cfg.logoUrl ≠ "" then
      "<img src=\"" ++ cfg.logoUrl ++ "\" alt=\"Logo\" style=\"height:50px;object-fit:contain;\"/>"
    else "") ++
    "\n\t\t\t\t<div style=\"font-size:19px;font-weight:700;letter-spacing:.5px;\">" ++
    cfg.name ++ "</div>\n\t\t\t</div>\n\t\t\t<div style=\"font-size:10px;font-style:italic;\">" ++
    cfg.addressLine ++
    "</div>\n\t\t\t<div style=\"display:inline-flex;align-items:center;gap:6px;border:1px solid #000;padding:2px 6px;font-size:12px;font-weight:600;margin-top:4px;\">Fee Receipt <span style=\"font-size:10px;font-weight:400;\">("

/-- The template text of one copy block after the copy label: everything
of `rowsHtml` (lines 486-516) from `)` after `${copy}` on. -/
def rowsHtmlPost (p : ReceiptProps) (cfg : SchoolConfig) (words : ℚ → String)
    (nextSerial : ℕ) : String :=
  ")</span></div>\n\t\t</div>\n\t\t<div style=\"line-height:1.3;margin-bottom:6px;\">\n\t\t\t<div style=\"display:flex;justify-content:space-between;\"><span>Serial No.: <strong>" ++
    serialStrOf p nextSerial ++ "</strong></span><span>Date: " ++ p.paymentDate ++
    "</span></div>\n\t\t\t<div>Name of the Student: <strong>" ++ p.student.name ++
    "</strong></div>\n\t\t\t" ++
    (if p.student.fatherName ≠ "" then
      "<div>Father\x27s Name: <strong>" ++ p.student.fatherName ++ "</strong></div>"
    else "") ++
    "\n\t\t\t<div style=\"display:flex;justify-content:space-between;\"><span>Class: <strong>" ++
    (if clsOf p.student = "" then "—" else clsOf p.student) ++
    "</strong></span><span>Session: <strong>" ++ sessionValueOf p cfg ++
    "</strong></span></div>\n\t\t\t" ++
    (if p.student.admissionNumber ≠ "" then
      "<div>Admission No.: <strong>" ++ p.student.admissionNumber ++ "</strong></div>"
    else "") ++
    "\n\t\t</div>\n\t\t<table style=\"width:100%;border-collapse:collapse;font-size:11px;margin-bottom:6px;\">\n\t\t\t<thead>\n\t\t\t\t<tr>\n\t\t\t\t\t<th style=\"border:1px solid #000;width:32px;padding:4px;\">S.No.</th>\n\t\t\t\t\t<th style=\"border:1px solid #000;padding:4px;\">Particulars</th>\n\t\t\t\t\t<th style=\"border:1px solid #000;width:90px;padding:4px;\">Amount (₹)</th>\n\t\t\t\t</tr>\n\t\t\t</thead>\n\t\t\t<tbody>\n\t\t\t\t" ++
    rowsJoined p.items ++ "\n\t\t\t\t" ++ totalRowHtml p.items ++
    "\n\t\t\t</tbody>\n\t\t</table>\n\t\t<div style=\"font-size:10px;margin-bottom:4px;\">Amount In Words: <em>" ++
    words (totalOf p.items) ++ "</em></div>\n\t\t" ++ summaryHtml p ++
    "\n\t\t<div style=\"text-align:right;font-size:11px;margin-top:20px;\">\n\t\t\t<div style=\"height:40px;\"></div>\n\t\t\t<div style=\"border-top:1px solid #000;padding-top:4px;display:inline-block;\">Signature</div>\n\t\t</div>\n\t</div>"

/-- `rowsHtml` (lines 478-516): one copy block; `copy` is interpolated
once, inside `(…)` after `Fee Receipt`. -/
def rowsHtml (p : ReceiptProps) (cfg : SchoolConfig) (words : ℚ → String)
    (nextSerial : ℕ) (copy : String) : String :=
  rowsHtmlPre cfg ++ copy ++ rowsHtmlPost p cfg words nextSerial

/-- `copies` (line 475): the two logical copies, in emission order. -/
def copiesList : List String := ["Student Copy", "Office Copy"]

/-- `buildPlainHtml` (line 517): `copies.map(rowsHtml).join('')`. -/
def buildPlainHtml (p : ReceiptProps) (cfg : SchoolConfig) (words : ℚ → String)
    (nextSerial : ℕ) : String :=
  String.join (copiesList.map (rowsHtml p cfg words nextSerial))

/-- `printReceipt` page count (line 429):
`props.copies && props.copies > 0 ? props.copies : 1`. -/
def printedPages (copies : Option ℕ) : ℕ :=
  match copies with
  | some n => if 0 < n then n else 1
  | none => 1

/-- The page separator of `printReceipt` (line 430). -/
def pageBreakDiv : String := "<div style=\"page-break-after:always\"></div>"

/-- The document body `printReceipt` writes and prints (lines 427-430):
the plain-HTML receipt repeated once per physical page. -/
def printArtifact (p : ReceiptProps) (cfg : SchoolConfig) (words : ℚ → String)
    (nextSerial : ℕ) (copies : Option ℕ) : String :=
  String.intercalate pageBreakDiv
    (List.replicate (printedPages copies) (buildPlainHtml p cfg words nextSerial))

/-! ## The print path of the modal (ReceiptDistributionModal.tsx lines 91-117)

`handlePrint` aborts when the distribution is invalid or transaction or
student is missing; otherwise, when the modal holds no serial it POSTs
`/api/fees/:id/assign-serial` and, whether or not that produced a serial
(`allocResp`), goes on to call `printReceipt` with `serial: serialToUse`
(possibly `undefined`) and `copies: 1`.  Errors of the allocation call are
swallowed (`catch \x7b\x7d`). -/

/-- The client-side fee transaction record (`FeeTransaction`,
FeesPage.tsx lines 28-39). -/
structure ClientFeeTx where
  id : String
  studentId : String
  studentName : String
  amount : ℚ
  date : String
  transactionId : String
  paymentMode : String
  remarks : String
  receiptSerial : Option ℕ
  createdAt : String
  updatedAt : String
  deriving DecidableEq

/-- The modal's initial `receiptSerial` state (modal lines 33 and 46):
`transaction.receiptSerial`. -/
def modalInitialSerial (tx : ClientFeeTx) : Option ℕ := tx.receiptSerial

/-- Whether `handlePrint` issues the allocation request (modal line 95):
`if (serialToUse == null)`. -/
def handlePrintRequestsAllocation (modalSerial : Option ℕ) : Bool :=
  modalSerial.isNone

/-- The `ReceiptProps` handed to `printReceipt` (modal lines 105-115):
items from `numericAmounts`, `paymentDate` from `transaction.date.slice(0,10)`,
`serial` the modal serial or else the allocation response, session from the
config; `remainingFee` is not passed. -/
def handlePrintProps (amts : Cat → ℚ) (tx : ClientFeeTx) (st : StudentSnap)
    (modalSerial allocResp : Option ℕ) (yearly paid : Option ℚ)
    (cfg : SchoolConfig) : ReceiptProps :=
  { student := st
    items := numericAmounts amts
    paymentDate := tx.date.take 10
    serial := match modalSerial with
      | some n => some n
      | none => allocResp
    session := some cfg.session
    yearlyFeeAmount := yearly
    paidSoFar := paid
    remainingFee := none }

/-- `handlePrint` (modal lines 91-117), returning the printed artifact
(`none` when the early return fires).  `allocResp` is the serial obtained
from `POST /api/fees/:id/assign-serial`, or `none` when that call failed,
returned non-OK, or produced no serial. -/
def handlePrint (target : ℚ) (amts : Cat → ℚ) (transaction : Option ClientFeeTx)
    (student : Option StudentSnap) (modalSerial allocResp : Option ℕ)
    (yearly paid : Option ℚ) (cfg : SchoolConfig) (words : ℚ → String)
    (nextSerial : ℕ) : Option String :=
  match transaction, student with
  | some tx, some st =>
    if validB target amts then
      some (printArtifact (handlePrintProps amts tx st modalSerial allocResp yearly paid cfg)
        cfg words nextSerial (some 1))
    else none
  | _, _ => none

/-! ## `GET /api/fees` (server/routes.ts lines 286-308)

The SELECT list names `id`, `student_id`, `transaction_id`, `amount`,
`payment_date`, `payment_mode`, `remarks`, the joined student name and the
timestamps — `receipt_serial` is not selected — and the mapped object
(lines 295-306) likewise has no `receiptSerial` key, so the JSON reaching
the client leaves the client-side `receiptSerial` field `undefined`
(`none`). -/

/-- A `fee_transactions` row joined with its student's name, as the route
reads it from the database (the table itself carries `receipt_serial`). -/
structure DbFeeRow where
  id : String
  studentId : String
  transactionId : String
  amount : ℚ
  paymentDate : String
  paymentMode : String
  remarks : Option String
  receiptSerial : Option ℕ
  createdAt : String
  updatedAt : String
  studentName : String
  deriving DecidableEq

/-- The route's row mapping (routes.ts lines 295-306): `amount` parsed to
a number, `payment_date` renamed `date`, `remarks` defaulted to `''`; no
`receiptSerial` key is emitted. -/
def apiFees (rows : List DbFeeRow) : List ClientFeeTx :=
  rows.map fun r =>
    { id := r.id
      studentId := r.studentId
      studentName := r.studentName
      amount := r.amount
      date := r.paymentDate
      transactionId := r.transactionId
      paymentMode := r.paymentMode
      remarks := r.remarks.getD ""
      receiptSerial := none
      createdAt := r.createdAt
      updatedAt := r.updatedAt }

/-! ## Concrete inputs used by witnesses and counterexamples -/

/-- C1 counterexample state: one row already serialed `5`, one row
unserialed, same payment date. -/
def exC1State : List Tx := [⟨"a", 0, some 5⟩, ⟨"b", 0, none⟩]

/-- C1 witness state: one serialed row and two unserialed rows whose
`(payment_date, id)` order differs from their list order. -/
def exC1Txs : List Tx := [⟨"a", 0, some 5⟩, ⟨"c", 1, none⟩, ⟨"b", 0, none⟩]

/-- C4 witness state: two unserialed rows, listed against date order. -/
def exC4Txs : List Tx := [⟨"b", 1, none⟩, ⟨"a", 0, none⟩]

/-- A distribution putting the whole amount on Teaching Fee. -/
def exTeachingOnly (q : ℚ) : Cat → ℚ :=
  fun c => if c = Cat.teaching then q else 0

/-- C3 counterexample distribution: `1.007` on Teaching Fee against a
transaction amount of `1.00`. -/
def exC3Amts : Cat → ℚ := exTeachingOnly (1007/1000)

/-- A concrete client transaction lacking a serial. -/
def exC2Tx : ClientFeeTx :=
  ⟨"t1", "s1", "A Student", 100, "2025-04-01T00:00:00Z", "TXN1", "cash", "", none, "", ""⟩

/-- A concrete student snapshot. -/
def exStudent : StudentSnap := ⟨"A Student", "", "5", "A", "ADM1"⟩

/-- A concrete branding configuration (no logo). -/
def exCfg : SchoolConfig := ⟨"The School", "Address Line", "2025-26", ""⟩

/-- A concrete stand-in for the amount-in-words collaborator. -/
def exWords : ℚ → String := fun _ => "WORDS"

/-- C8 distribution: `12345.67` on Teaching Fee, `0` elsewhere, in the
fixed label order. -/
def exC8Items : List ReceiptItem := numericAmounts (exTeachingOnly (1234567/100))

/-- C8 props: amount `12345.67`, serial `42`. -/
def exC8Props : ReceiptProps :=
  { student := exStudent
    items := exC8Items
    paymentDate := "2025-04-01"
    serial := some 42
    session := none
    yearlyFeeAmount := none
    paidSoFar := none
    remainingFee := none }

/-- C9 witness database row: the persisted serial is `7`. -/
def exDbRow : DbFeeRow :=
  ⟨"f1", "s1", "TXN1", 100, "2025-04-01", "cash", some "note", some 7, "c", "u", "A Student"⟩

/-- The record `GET /api/fees` returns for `exDbRow`. -/
def exMappedTx : ClientFeeTx :=
  ⟨"f1", "s1", "A Student", 100, "2025-04-01", "TXN1", "cash", "note", none, "c", "u"⟩

/-- C10 witness items: a duplicate label and a foreign label. -/
def exC10Items : List ReceiptItem :=
  [⟨"Teaching Fee", 10⟩, ⟨"Bogus Fee", 3⟩, ⟨"Teaching Fee", 20⟩]

/-! # Theorems

## Decimal semantics -/

theorem jround_eq_round (q : ℚ) : jround q = round q := by
  rw [round_eq, Rat.floor_def, jround]

theorem round2_eq (q : ℚ) : round2 q = (round (q * 100) : ℤ) / 100 := by
  rw [round2, jround_eq_round]

/-- `toFixed(2)` fixes exact two-decimal values. -/
theorem round2_int_div_100 (z : ℤ) : round2 ((z : ℚ) / 100) = (z : ℚ) / 100 := by
  rw [round2_eq]
  have h : ((z : ℚ) / 100) * 100 = (z : ℚ) := by
    field_simp
  rw [h, round_intCast]

/-! ## Order lemmas for `keyLt`/`keyLe` -/

theorem keyLt_trans {a b c : Tx} (h₁ : keyLt a b) (h₂ : keyLt b c) : keyLt a c := by
  rcases h₁ with h₁ | ⟨e₁, i₁⟩ <;> rcases h₂ with h₂ | ⟨e₂, i₂⟩
  · exact Or.inl (h₁.trans h₂)
  · exact Or.inl (e₂ ▸ h₁)
  · exact Or.inl (e₁ ▸ h₂)
  · exact Or.inr ⟨e₁.trans e₂, i₁.trans i₂⟩

theorem keyLt_irrefl (a : Tx) : ¬ keyLt a a := by
  rintro (h | ⟨-, h⟩)
  · exact lt_irrefl _ h
  · exact lt_irrefl _ h

theorem keyLt_asymm {a b : Tx} (h : keyLt a b) : ¬ keyLt b a :=
  fun h' => keyLt_irrefl a (keyLt_trans h h')

/-- Two rows with distinct primary keys are strictly comparable. -/
theorem keyLt_of_ne {a b : Tx} (h : a.id ≠ b.id) : keyLt a b ∨ keyLt b a := by
  rcases lt_trichotomy a.paymentDate b.paymentDate with hd | hd | hd
  · exact Or.inl (Or.inl hd)
  · rcases lt_or_gt_of_ne h with hi | hi
    · exact Or.inl (Or.inr ⟨hd, hi⟩)
    · exact Or.inr (Or.inr ⟨hd.symm, hi⟩)
  · exact Or.inr (Or.inl hd)

theorem keyLe_trans : ∀ a b c : Tx, keyLe a b → keyLe b c → keyLe a c := by
  intro a b c h₁ h₂
  simp only [keyLe, Bool.or_eq_true, Bool.and_eq_true, decide_eq_true_eq] at *
  rcases h₁ with h₁ | ⟨e₁, i₁⟩ <;> rcases h₂ with h₂ | ⟨e₂, i₂⟩
  · exact Or.inl (h₁.trans h₂)
  · exact Or.inl (e₂ ▸ h₁)
  · exact Or.inl (e₁ ▸ h₂)
  · exact Or.inr ⟨e₁.trans e₂, i₁.trans i₂⟩

theorem keyLe_total : ∀ a b : Tx, keyLe a b || keyLe b a := by
  intro a b
  simp only [keyLe, Bool.or_eq_true, Bool.and_eq_true, decide_eq_true_eq]
  rcases lt_trichotomy a.paymentDate b.paymentDate with hd | hd | hd
  · exact Or.inl (Or.inl hd)
  · rcases le_total a.id b.id with hi | hi
    · exact Or.inl (Or.inr ⟨hd, hi⟩)
    · exact Or.inr (Or.inr ⟨hd.symm, hi⟩)
  · exact Or.inr (Or.inl hd)

theorem keyLt_of_keyLe_of_ne {a b : Tx} (h : keyLe a b) (hne : a.id ≠ b.id) : keyLt a b := by
  simp only [keyLe, Bool.or_eq_true, Bool.and_eq_true, decide_eq_true_eq] at h
  rcases h with h | ⟨e, i⟩
  · exact Or.inl h
  · exact Or.inr ⟨e, lt_of_le_of_ne i hne⟩

/-! ## Counting lemmas for `ROW_NUMBER` ranks -/

theorem length_filter_le_of_imp {α : Type} (l : List α) (P Q : α → Bool)
    (h : ∀ a ∈ l, P a = true → Q a = true) :
    (l.filter P).length ≤ (l.filter Q).length := by
  induction l with
  | nil => simp
  | cons a t ih =>
    have ht : ∀ x ∈ t, P x = true → Q x = true := fun x hx => h x (List.mem_cons_of_mem _ hx)
    rw [List.filter_cons, List.filter_cons]
    cases hP : P a with
    | true =>
      rw [h a (List.mem_cons_self _ _) hP]
      simpa using Nat.succ_le_succ (ih ht)
    | false =>
      cases hQ : Q a with
      | true => simpa using (ih ht).trans (Nat.le_succ _)
      | false => simpa using ih ht

theorem length_filter_lt_of_mem {α : Type} {l : List α} {P Q : α → Bool} {x : α}
    (h : ∀ a ∈ l, P a = true → Q a = true) (hx : x ∈ l)
    (hQx : Q x = true) (hPx : P x = false) :
    (l.filter P).length < (l.filter Q).length := by
  induction l with
  | nil => cases hx
  | cons a t ih =>
    have ht : ∀ y ∈ t, P y = true → Q y = true := fun y hy => h y (List.mem_cons_of_mem _ hy)
    rw [List.filter_cons, List.filter_cons]
    rcases List.mem_cons.mp hx with rfl | hx'
    · rw [hPx, hQx]
      simpa using Nat.lt_succ_of_le (length_filter_le_of_imp t P Q ht)
    · cases hP : P a with
      | true =>
        rw [h a (List.mem_cons_self _ _) hP]
        simpa using Nat.succ_lt_succ (ih ht hx')
      | false =>
        cases hQ : Q a with
        | true => simpa using Nat.lt_succ_of_lt (ih ht hx')
        | false => simpa using ih ht hx'

/-- Every row of the list whose serial is absent is in the window. -/
theorem mem_nullRows {txs : List Tx} {t : Tx} (ht : t ∈ txs)
    (hn : t.receiptSerial = none) : t ∈ nullRows txs :=
  List.mem_filter.mpr ⟨ht, by rw [hn]; rfl⟩

/-- Ranks respect the window order: a window row strictly before `b` has
a strictly smaller `ROW_NUMBER`. -/
theorem rowNumber_lt_rowNumber {txs : List Tx} {a b : Tx}
    (ha : a ∈ nullRows txs) (hab : keyLt a b) :
    rowNumber txs a < rowNumber txs b := by
  unfold rowNumber
  apply Nat.add_lt_add_left
  exact length_filter_lt_of_mem
    (fun u _ hP => decide_eq_true (keyLt_trans (of_decide_eq_true hP) hab))
    ha (decide_eq_true hab) (decide_eq_false (keyLt_irrefl a))

theorem rowNumber_ne_of_ne {txs : List Tx} {a b : Tx}
    (ha : a ∈ nullRows txs) (hb : b ∈ nullRows txs) (hne : a.id ≠ b.id) :
    rowNumber txs a ≠ rowNumber txs b := by
  rcases keyLt_of_ne hne with h | h
  · exact Nat.ne_of_lt (rowNumber_lt_rowNumber ha h)
  · exact Nat.ne_of_gt (rowNumber_lt_rowNumber hb h)

/-- In a list strictly sorted by `keyLt`, the number of elements smaller
than the `i`-th one is exactly `i`. -/
theorem length_filter_keyLt_get :
    ∀ (L : List Tx), L.Pairwise keyLt → ∀ (i : Fin L.length),
      (L.filter fun u => decide (keyLt u (L.get i))).length = i.val
  | [], _, i => absurd i.isLt (by simp)
  | a :: t, hL, ⟨0, h0⟩ => by
    have hpw := List.pairwise_cons.mp hL
    have hnone : ∀ u ∈ a :: t, ¬ (decide (keyLt u a) = true) := by
      intro u hu
      rcases List.mem_cons.mp hu with rfl | hu'
      · simpa using keyLt_irrefl u
      · simpa using keyLt_asymm (hpw.1 u hu')
    simp only [List.get]
    rw [List.filter_eq_nil_iff.mpr hnone]
    rfl
  | a :: t, hL, ⟨j + 1, hj⟩ => by
    have hpw := List.pairwise_cons.mp hL
    have hjt : j < t.length := Nat.lt_of_succ_lt_succ hj
    have hmem : t.get ⟨j, hjt⟩ ∈ t := List.get_mem t j hjt
    have hd : decide (keyLt a (t.get ⟨j, hjt⟩)) = true :=
      decide_eq_true (hpw.1 _ hmem)
    simp only [List.get, List.filter_cons, hd, if_true, List.length_cons]
    rw [length_filter_keyLt_get t hpw.2 ⟨j, hjt⟩]

/-- The sorted window is strictly sorted once the primary key is unique. -/
theorem sortedNullRows_pairwise_keyLt (txs : List Tx)
    (hid : (nullRows txs).Pairwise fun a b => a.id ≠ b.id) :
    (sortedNullRows txs).Pairwise keyLt := by
  have hsorted : (sortedNullRows txs).Pairwise fun a b => keyLe a b = true :=
    List.sorted_mergeSort keyLe_trans keyLe_total (nullRows txs)
  have hperm : List.Perm (sortedNullRows txs) (nullRows txs) := List.mergeSort_perm _ _
  have hne : (sortedNullRows txs).Pairwise fun a b => a.id ≠ b.id :=
    (hperm.pairwise_iff fun h => h.symm).mpr hid
  exact (hsorted.and hne).imp fun h => keyLt_of_keyLe_of_ne h.1 h.2

/-- The ranks assigned across the window, read in `(payment_date, id)`
order, are exactly `1, 2, …, n`. -/
theorem sortedNullRows_map_rowNumber (txs : List Tx)
    (hid : (nullRows txs).Pairwise fun a b => a.id ≠ b.id) :
    (sortedNullRows txs).map (rowNumber txs) = List.range' 1 (nullRows txs).length := by
  have hperm : List.Perm (sortedNullRows txs) (nullRows txs) := List.mergeSort_perm _ _
  have hpw := sortedNullRows_pairwise_keyLt txs hid
  have hlen : (sortedNullRows txs).length = (nullRows txs).length := hperm.length_eq
  apply List.ext_get
  · simp [hlen]
  · intro n h₁ h₂
    have hn : n < (sortedNullRows txs).length := by simpa using h₁
    have hget : (List.map (rowNumber txs) (sortedNullRows txs)).get ⟨n, h₁⟩ =
        rowNumber txs ((sortedNullRows txs).get ⟨n, hn⟩) := by
      simp
    rw [hget]
    have hcount :
        ((sortedNullRows txs).filter
          fun u => decide (keyLt u ((sortedNullRows txs).get ⟨n, hn⟩))).length = n :=
      length_filter_keyLt_get _ hpw ⟨n, hn⟩
    have hfilter :
        ((nullRows txs).filter
            fun u => decide (keyLt u ((sortedNullRows txs).get ⟨n, hn⟩))).length =
          ((sortedNullRows txs).filter
            fun u => decide (keyLt u ((sortedNullRows txs).get ⟨n, hn⟩))).length :=
      (hperm.filter _).length_eq.symm
    have hrn : rowNumber txs ((sortedNullRows txs).get ⟨n, hn⟩) = 1 + n := by
      rw [rowNumber, hfilter, hcount]
    rw [hrn]
    simp [List.getElem_range']

/-- Mapping a function that fixes every member is the identity. -/
theorem map_id_of_mem {α : Type} (l : List α) (f : α → α) (h : ∀ a ∈ l, f a = a) :
    l.map f = l := by
  induction l with
  | nil => rfl
  | cons a t ih =>
    rw [List.map_cons, h a (List.mem_cons_self a t),
      ih fun x hx => h x (List.mem_cons_of_mem _ hx)]

/-! ## Claims about the backfill (C1, C4, C7) -/

/-- **C1, counterexample.**  The claim states that the smallest serial
assigned by backfill exceeds the maximum serial already assigned.  In the
state `exC1State` — one row already holding serial `5`, one row with no
serial — the backfill `UPDATE` gives the unserialed row `ROW_NUMBER` `1`,
and `1 > 5` is false: the backfill numbering restarts at `1` regardless of
existing serials. -/
theorem backfill_restarts_at_one_cex :
    backfill exC1State = [⟨"a", 0, some 5⟩, ⟨"b", 0, some 1⟩] ∧ ¬ (1 : ℕ) > 5 :=
  ⟨by with_unfolding_all rfl, by decide⟩

/-- **C1 (amended).**  The backfill selects the transactions with no
receipt serial, orders them by payment date ascending then identifier
ascending, and assigns them the consecutive integers `1, 2, …, n` starting
at `1` — irrespective of any already-assigned serials (the smallest
assigned serial is `1`, not one more than the existing maximum):
the window rows read in `(payment_date, id)` order receive exactly
`[1, …, n]`, and each unserialed row reappears in the backfill result with
its rank as serial. -/
theorem backfill_consecutive_from_one (txs : List Tx)
    (hid : (nullRows txs).Pairwise fun a b => a.id ≠ b.id) :
    (sortedNullRows txs).map (rowNumber txs) = List.range' 1 (nullRows txs).length ∧
      ∀ t ∈ txs, t.receiptSerial = none →
        { t with receiptSerial := some (rowNumber txs t) } ∈ backfill txs := by
  refine ⟨sortedNullRows_map_rowNumber txs hid, ?_⟩
  intro t ht hn
  have hmem := List.mem_map_of_mem
    (fun t : Tx =>
      if t.receiptSerial.isNone then { t with receiptSerial := some (rowNumber txs t) } else t)
    ht
  simpa [backfill, hn] using hmem

/-- Witness for C1 (amended) at the state `exC1Txs`. -/
theorem backfill_consecutive_from_one_witness :
    ((nullRows exC1Txs).Pairwise fun a b => a.id ≠ b.id) ∧
      ((sortedNullRows exC1Txs).map (rowNumber exC1Txs) =
          List.range' 1 (nullRows exC1Txs).length ∧
        ∀ t ∈ exC1Txs, t.receiptSerial = none →
          { t with receiptSerial := some (rowNumber exC1Txs t) } ∈ backfill exC1Txs) :=
  ⟨by with_unfolding_all decide,
    backfill_consecutive_from_one exC1Txs (by with_unfolding_all decide)⟩

/-- **C4.**  Running the backfill on a state of pairwise-distinct rows all
missing a serial: every resulting row carries a serial; the serials are
pairwise distinct; and for any two resulting rows, the one earlier by
payment date (ties broken by identifier ascending, i.e. `keyLt`) carries
the strictly smaller serial. -/
theorem backfill_total_unique_ordered (txs : List Tx)
    (hid : txs.Pairwise fun a b => a.id ≠ b.id)
    (hnull : ∀ t ∈ txs, t.receiptSerial = none) :
    (∀ t ∈ backfill txs, t.receiptSerial.isSome = true) ∧
      ((backfill txs).Pairwise fun a b => a.receiptSerial ≠ b.receiptSerial) ∧
      ∀ a ∈ backfill txs, ∀ b ∈ backfill txs, ∀ m n : ℕ,
        a.receiptSerial = some m → b.receiptSerial = some n → keyLt a b → m < n := by
  have hfa : ∀ t ∈ txs,
      (if t.receiptSerial.isNone then { t with receiptSerial := some (rowNumber txs t) }
        else t) = { t with receiptSerial := some (rowNumber txs t) } := by
    intro t ht
    rw [hnull t ht]
    rfl
  refine ⟨?_, ?_, ?_⟩
  · intro t ht
    obtain ⟨u, hu, rfl⟩ := List.mem_map.mp ht
    rw [hfa u hu]
    rfl
  · rw [backfill, List.pairwise_map]
    refine hid.imp_of_mem ?_
    intro a b ha hb hne
    rw [hfa a ha, hfa b hb]
    simpa using rowNumber_ne_of_ne (mem_nullRows ha (hnull a ha))
      (mem_nullRows hb (hnull b hb)) hne
  · intro a ha b hb m n ham hbn hab
    obtain ⟨u, hu, rfl⟩ := List.mem_map.mp ha
    obtain ⟨v, hv, rfl⟩ := List.mem_map.mp hb
    rw [hfa u hu] at ham
    rw [hfa v hv] at hbn
    rw [hfa u hu, hfa v hv] at hab
    have hm : rowNumber txs u = m := by simpa using ham
    have hn : rowNumber txs v = n := by simpa using hbn
    have huv : keyLt u v := hab
    have := rowNumber_lt_rowNumber (mem_nullRows hu (hnull u hu)) huv
    omega

/-- Witness for C4 at the all-unserialed state `exC4Txs`. -/
theorem backfill_total_unique_ordered_witness :
    (exC4Txs.Pairwise fun a b => a.id ≠ b.id) ∧
      (∀ t ∈ exC4Txs, t.receiptSerial = none) ∧
      ((∀ t ∈ backfill exC4Txs, t.receiptSerial.isSome = true) ∧
        ((backfill exC4Txs).Pairwise fun a b => a.receiptSerial ≠ b.receiptSerial) ∧
        ∀ a ∈ backfill exC4Txs, ∀ b ∈ backfill exC4Txs, ∀ m n : ℕ,
          a.receiptSerial = some m → b.receiptSerial = some n → keyLt a b → m < n) :=
  ⟨by with_unfolding_all decide, by with_unfolding_all decide,
    backfill_total_unique_ordered exC4Txs (by with_unfolding_all decide)
      (by with_unfolding_all decide)⟩

/-- **C7.**  The backfill never modifies an already-serialed transaction:
when every row holds a serial the backfill is the identity, and in every
state an already-serialed row reappears unchanged (same serial) in the
result. -/
theorem backfill_preserves_existing (txs : List Tx) :
    ((∀ t ∈ txs, t.receiptSerial.isSome = true) → backfill txs = txs) ∧
      ∀ t ∈ txs, ∀ n : ℕ, t.receiptSerial = some n → t ∈ backfill txs := by
  constructor
  · intro h
    refine map_id_of_mem txs _ ?_
    intro t ht
    cases hn : t.receiptSerial with
    | none =>
      have hs := h t ht
      rw [hn] at hs
      exact absurd hs (by simp)
    | some k => rfl
  · intro t ht n hn
    have hmem := List.mem_map_of_mem
      (fun t : Tx =>
        if t.receiptSerial.isNone then { t with receiptSerial := some (rowNumber txs t) }
        else t)
      ht
    simpa [backfill, hn] using hmem

/-! ## Arithmetic of the validation tolerance -/

/-- `totalEntered` expanded over the six fixed categories. -/
theorem totalEntered_eq (amts : Cat → ℚ) :
    totalEntered amts =
      amts .admission + amts .teaching + amts .exam + amts .computer +
        amts .development + amts .other := by
  simp only [totalEntered, numericAmounts, CATEGORY_ORDER, List.map_cons, List.map_nil,
    List.foldl_cons, List.foldl_nil]
  ring

theorem mem_CATEGORY_ORDER (c : Cat) : c ∈ CATEGORY_ORDER := by
  cases c <;> simp [CATEGORY_ORDER]

/-- `numericAmounts.some(n => n.amount > 0)` holds exactly when some
category's entered amount is positive. -/
theorem numericAmounts_any_pos_iff (amts : Cat → ℚ) :
    (((numericAmounts amts).any fun n => decide (0 < n.amount)) = true) ↔ ∃ c, 0 < amts c := by
  rw [List.any_eq_true]
  constructor
  · rintro ⟨x, hx, hpos⟩
    obtain ⟨c, -, rfl⟩ := List.mem_map.mp hx
    exact ⟨c, of_decide_eq_true hpos⟩
  · rintro ⟨c, hc⟩
    exact ⟨⟨c.label, amts c⟩, List.mem_map_of_mem _ (mem_CATEGORY_ORDER c), decide_eq_true hc⟩

/-- The code's tolerance test `Math.abs(+(d).toFixed(2)) < 0.01` accepts
exactly the differences rounding to zero at two decimals:
`-0.005 ≤ d < 0.005`. -/
theorem abs_round2_lt_iff (d : ℚ) :
    |round2 d| < 1/100 ↔ (-(1/200) ≤ d ∧ d < 1/200) := by
  have h1 : |round2 d| < 1/100 ↔ round (d * 100) = 0 := by
    rw [round2_eq, abs_div, abs_of_pos (show (0:ℚ) < 100 by norm_num),
      div_lt_div_iff_of_pos_right (show (0:ℚ) < 100 by norm_num), ← Int.cast_abs]
    constructor
    · intro h
      refine Int.abs_lt_one_iff.mp ?_
      exact_mod_cast h
    · intro h
      rw [h]
      norm_num
  rw [h1, round_eq_zero_iff, Set.mem_Ico]
  constructor
  · rintro ⟨ha, hb⟩
    exact ⟨by linarith, by linarith⟩
  · rintro ⟨ha, hb⟩
    exact ⟨by linarith, by linarith⟩

/-- The `valid` characterization behind C3's amended statement. -/
theorem validB_iff (target : ℚ) (amts : Cat → ℚ) :
    validB target amts = true ↔
      (0 < target ∧ -(1/200) ≤ totalEntered amts - target ∧
        totalEntered amts - target < 1/200 ∧ ∃ c, 0 < amts c) := by
  unfold validB
  rw [Bool.and_eq_true, Bool.and_eq_true, numericAmounts_any_pos_iff,
    decide_eq_true_eq, decide_eq_true_eq]
  have hd : diffOf target amts = round2 (totalEntered amts - target) := rfl
  rw [hd, abs_round2_lt_iff]
  tauto

/-- A difference of one cent or more survives the rounding:
`|+(d).toFixed(2)|` is still at least `0.01`. -/
theorem le_abs_round2 (d : ℚ) (hd : 1/100 ≤ |d|) : 1/100 ≤ |round2 d| := by
  rw [round2_eq]
  rcases le_abs.mp hd with h | h
  · have hz : (1 : ℤ) ≤ round (d * 100) := by
      rw [round_eq]
      refine Int.le_floor.mpr ?_
      push_cast
      linarith
    have hq : (1 : ℚ) ≤ ((round (d * 100) : ℤ) : ℚ) := by exact_mod_cast hz
    calc 1/100 ≤ ((round (d * 100) : ℤ) : ℚ) / 100 := by linarith
    _ ≤ |((round (d * 100) : ℤ) : ℚ) / 100| := le_abs_self _
  · have hz : round (d * 100) ≤ -1 := by
      rw [round_eq]
      have hle : d * 100 + 1/2 ≤ -(1/2) := by linarith
      calc ⌊d * 100 + 1/2⌋ ≤ ⌊(-(1/2) : ℚ)⌋ := Int.floor_le_floor hle
      _ = -1 := by
          rw [Int.floor_eq_iff]
          constructor <;> norm_num
    have hq : ((round (d * 100) : ℤ) : ℚ) ≤ -1 := by exact_mod_cast hz
    calc 1/100 ≤ -(((round (d * 100) : ℤ) : ℚ) / 100) := by linarith
    _ ≤ |((round (d * 100) : ℤ) : ℚ) / 100| := neg_le_abs _

/-! ## Claims about the distribution calculator (C3, C5, C6) -/

/-- **C3, counterexample.**  At transaction amount `1.00` with `1.007`
entered on Teaching Fee, the claimed condition holds — the amount is
positive, `|1.007 − 1| = 0.007 < 0.01`, and a category is positive — yet
`valid` is `false`: the code tests `Math.abs(+(sum − T).toFixed(2)) < 0.01`,
and `(0.007).toFixed(2) = 0.01`. -/
theorem valid_tolerance_cex :
    ¬ (validB 1 exC3Amts = true ↔
      (0 < (1:ℚ) ∧ |totalEntered exC3Amts - 1| < 1/100 ∧ ∃ c, 0 < exC3Amts c)) := by
  with_unfolding_all decide

/-- **C3 (amended).**  The distribution validates (printing enabled) iff
(a) the amount is strictly positive, (b) the difference between the
entered sum and the amount, rounded to two decimals, is zero — that is,
`-0.005 ≤ sum − T < 0.005`, not `|sum − T| < 0.01` — and (c) at least one
category is strictly positive. -/
theorem valid_iff_rounded_zero (target : ℚ) (amts : Cat → ℚ) :
    validB target amts = true ↔
      (0 < target ∧ -(1/200) ≤ totalEntered amts - target ∧
        totalEntered amts - target < 1/200 ∧ ∃ c, 0 < amts c) :=
  validB_iff target amts

/-- **C5.**  For a positive two-decimal transaction amount, auto-distribute
zeroes Admission Fee and Other Fee/Late Fee, gives Teaching/Exam./Computer
the amount divided by four rounded to two decimals, gives Development the
amount minus the three rounded shares, and the four shares sum exactly to
the amount; at `1000.00` every share is within one cent of `250.00` and
the shares sum to exactly `1000.00`. -/
theorem autoDistribute_spec (target : ℚ) (k : ℤ) (hk : target = (k : ℚ) / 100)
    (_hpos : 0 < target) :
    autoDistribute target .admission = 0 ∧
      autoDistribute target .other = 0 ∧
      autoDistribute target .teaching = round2 (target / 4) ∧
      autoDistribute target .exam = round2 (target / 4) ∧
      autoDistribute target .computer = round2 (target / 4) ∧
      autoDistribute target .development = target - 3 * round2 (target / 4) ∧
      (baseCategories.map (autoDistribute target)).sum = target ∧
      (∀ c ∈ baseCategories, |autoDistribute 1000 c - 250| ≤ 1/100) ∧
      (baseCategories.map (autoDistribute 1000)).sum = 1000 := by
  have hdev : autoDistribute target .development = target - 3 * round2 (target / 4) := by
    show round2 (target - round2 (target / 4) * 3) = target - 3 * round2 (target / 4)
    have hrepr : target - round2 (target / 4) * 3 =
        ((k - 3 * round (target / 4 * 100) : ℤ) : ℚ) / 100 := by
      rw [round2_eq, hk]
      push_cast
      ring
    rw [hrepr, round2_int_div_100, ← hrepr]
    ring
  refine ⟨rfl, rfl, rfl, rfl, rfl, hdev, ?_, ?_, ?_⟩
  · have hs : (baseCategories.map (autoDistribute target)).sum =
        round2 (target / 4) + round2 (target / 4) + round2 (target / 4) +
          autoDistribute target .development := by
      simp only [baseCategories, List.map_cons, List.map_nil, List.sum_cons, List.sum_nil]
      show round2 (target / 4) + (round2 (target / 4) + (round2 (target / 4) +
        (autoDistribute target .development + 0))) = _
      ring
    rw [hs, hdev]
    ring
  · intro c hc
    have : c = Cat.teaching ∨ c = Cat.exam ∨ c = Cat.computer ∨ c = Cat.development := by
      simpa [baseCategories] using hc
    rcases this with rfl | rfl | rfl | rfl <;> with_unfolding_all decide
  · with_unfolding_all rfl

/-- Witness for C5 at `1000.00` (`k = 100000`). -/
theorem autoDistribute_spec_witness :
    ((1000 : ℚ) = ((100000 : ℤ) : ℚ) / 100) ∧ (0 < (1000 : ℚ)) ∧
      (autoDistribute 1000 .admission = 0 ∧
        autoDistribute 1000 .other = 0 ∧
        autoDistribute 1000 .teaching = round2 (1000 / 4) ∧
        autoDistribute 1000 .exam = round2 (1000 / 4) ∧
        autoDistribute 1000 .computer = round2 (1000 / 4) ∧
        autoDistribute 1000 .development = 1000 - 3 * round2 (1000 / 4) ∧
        (baseCategories.map (autoDistribute 1000)).sum = 1000 ∧
        (∀ c ∈ baseCategories, |autoDistribute 1000 c - 250| ≤ 1/100) ∧
        (baseCategories.map (autoDistribute 1000)).sum = 1000) :=
  ⟨by norm_num, by norm_num, autoDistribute_spec 1000 100000 (by norm_num) (by norm_num)⟩

/-- **C6.**  Over nonnegative allocations and a positive transaction
amount: if the entered sum rounded to two decimals equals the amount,
`valid` is `true`; if the sum differs from the amount by at least `0.01`,
`valid` is `false` and the reported difference is the signed
`(sum − T).toFixed(2)`. -/
theorem validate_sum_characterization (target : ℚ) (amts : Cat → ℚ)
    (hpos : 0 < target) (hnn : ∀ c, 0 ≤ amts c) :
    (round2 (totalEntered amts) = target → validB target amts = true) ∧
      (1/100 ≤ |totalEntered amts - target| →
        validB target amts = false ∧
          diffOf target amts = round2 (totalEntered amts - target)) := by
  constructor
  · intro hr
    rw [round2_eq] at hr
    have h1 : ((round (totalEntered amts * 100) : ℤ) : ℚ) ≤ totalEntered amts * 100 + 1/2 := by
      rw [round_eq]
      exact Int.floor_le _
    have h2 : totalEntered amts * 100 + 1/2 <
        ((round (totalEntered amts * 100) : ℤ) : ℚ) + 1 := by
      rw [round_eq]
      exact Int.lt_floor_add_one _
    have hz1 : (1 : ℤ) ≤ round (totalEntered amts * 100) := by
      by_contra hz
      push_neg at hz
      have : ((round (totalEntered amts * 100) : ℤ) : ℚ) ≤ 0 := by exact_mod_cast Int.lt_add_one_iff.mp hz
      rw [← hr] at hpos
      linarith
    have hq1 : (1 : ℚ) ≤ ((round (totalEntered amts * 100) : ℤ) : ℚ) := by exact_mod_cast hz1
    rw [validB_iff]
    refine ⟨hpos, by rw [← hr]; linarith, by rw [← hr]; linarith, ?_⟩
    have htot : 0 < totalEntered amts := by
      rw [← hr] at *
      linarith
    by_contra hc
    push_neg at hc
    have hzero : ∀ c, amts c = 0 := fun c => le_antisymm (hc c) (hnn c)
    rw [totalEntered_eq] at htot
    simp [hzero] at htot
  · intro hd
    refine ⟨?_, rfl⟩
    have habs := le_abs_round2 _ hd
    have hflag : decide (|diffOf target amts| < 1/100) = false :=
      decide_eq_false (not_lt.mpr habs)
    unfold validB
    rw [hflag]
    simp

/-- Witness for C6 with the whole amount `1.00` on Teaching Fee. -/
theorem validate_sum_characterization_witness :
    (0 < (1 : ℚ)) ∧ (∀ c, 0 ≤ exTeachingOnly 1 c) ∧
      ((round2 (totalEntered (exTeachingOnly 1)) = 1 →
          validB 1 (exTeachingOnly 1) = true) ∧
        (1/100 ≤ |totalEntered (exTeachingOnly 1) - 1| →
          validB 1 (exTeachingOnly 1) = false ∧
            diffOf 1 (exTeachingOnly 1) =
              round2 (totalEntered (exTeachingOnly 1) - 1))) :=
  ⟨by norm_num, by with_unfolding_all decide,
    validate_sum_characterization 1 (exTeachingOnly 1) (by norm_num)
      (by with_unfolding_all decide)⟩

/-! ## The renderer's item normalization -/

/-- Appending one item overwrites exactly its label in the lookup map
(`forEach` assignment: the last occurrence of a label wins). -/
theorem mapOf_append_single (items : List ReceiptItem) (l : String) (a : ℚ) (l' : String) :
    mapOf (items ++ [⟨l, a⟩]) l' = if l' = l then some a else mapOf items l' := by
  rw [mapOf, List.foldl_append]
  rfl

/-- The lookup map ignores labels no item carries. -/
theorem foldl_mapOf_eq (l : String) :
    ∀ (items : List ReceiptItem), (∀ i ∈ items, i.label ≠ l) →
      ∀ m : String → Option ℚ,
        (items.foldl (fun m i => fun s => if s = i.label then some i.amount else m s) m) l = m l
  | [], _, _ => rfl
  | x :: t, h, m => by
    rw [List.foldl_cons]
    rw [foldl_mapOf_eq l t fun i hi => h i (List.mem_cons_of_mem _ hi)]
    have hx : l ≠ x.label := fun he => h x (List.mem_cons_self x t) he.symm
    simp [hx]

theorem mapOf_eq_of_not_mem (items : List ReceiptItem) (l : String)
    (h : ∀ i ∈ items, i.label ≠ l) : mapOf items l = none :=
  foldl_mapOf_eq l items h fun _ => none

/-- An item whose label is outside the six fixed categories does not
change the normalized row list. -/
theorem orderedOf_append_foreign (items : List ReceiptItem) (e : ReceiptItem)
    (he : e.label ∉ DEFAULT_ORDER) :
    orderedOf (items ++ [e]) = orderedOf items := by
  unfold orderedOf
  refine List.map_congr_left ?_
  intro lab hlab
  have hne : lab ≠ e.label := fun h => he (h ▸ hlab)
  have hmap := mapOf_append_single items e.label e.amount lab
  rw [show (⟨e.label, e.amount⟩ : ReceiptItem) = e from rfl] at hmap
  rw [hmap, if_neg hne]

/-! ## Claims about the renderer and the print path (C10, C8, C2, C9) -/

/-- **C10.**  The rendered line items are exactly the six fixed categories
in their fixed order; each carries the amount of the matching input label
(the last occurrence wins, per the `forEach` assignment), `0` when the
label is absent; items with labels outside the six are ignored (they
change neither the rows nor the total); a zero amount renders as a blank
cell; and the total row is the sum of exactly those six amounts (the
transaction's stored amount never reaches `buildPlainHtml`). -/
theorem receipt_line_items_normalization (items : List ReceiptItem) :
    ((orderedOf items).map ReceiptItem.label = DEFAULT_ORDER) ∧
      (∀ l a l', mapOf (items ++ [⟨l, a⟩]) l' = if l' = l then some a else mapOf items l') ∧
      (∀ l, (∀ i ∈ items, i.label ≠ l) → (mapOf items l).getD 0 = 0) ∧
      (∀ e : ReceiptItem, e.label ∉ DEFAULT_ORDER →
        orderedOf (items ++ [e]) = orderedOf items ∧
          totalOf (items ++ [e]) = totalOf items) ∧
      amountCell 0 = "" ∧
      totalOf items = ((orderedOf items).map ReceiptItem.amount).sum := by
  refine ⟨rfl, fun l a l' => mapOf_append_single items l a l', ?_, ?_, rfl, ?_⟩
  · intro l h
    rw [mapOf_eq_of_not_mem items l h]
    rfl
  · intro e he
    have ho := orderedOf_append_foreign items e he
    exact ⟨ho, by unfold totalOf; rw [ho]⟩
  · simp only [totalOf, orderedOf, DEFAULT_ORDER, List.map_cons, List.map_nil,
      List.foldl_cons, List.foldl_nil, List.sum_cons, List.sum_nil]
    ring

/-- **C8.**  For amount `12345.67` on Teaching Fee (zero elsewhere) and
serial `42`: the computed total is `12345.67` and its total row renders
`12345.67`; the serial displays zero-padded as `0042`; and the artifact is
exactly two copy blocks, labeled `Student Copy` then `Office Copy`, each
block placing its label inside `Fee Receipt (…)`. -/
theorem receipt_example_end_to_end :
    totalOf exC8Items = 1234567/100 ∧
      toFixed2 (totalOf exC8Items) = "12345.67" ∧
      totalRowHtml exC8Items =
        "<tr style=\"font-weight:600;\"><td style=\"border:1px solid #000;text-align:center;padding:4px;\">7.</td><td style=\"border:1px solid #000;padding:4px;\">Total Amount</td><td style=\"border:1px solid #000;text-align:right;padding:4px;\">12345.67</td></tr>" ∧
      serialStrOf exC8Props 7 = "0042" ∧
      buildPlainHtml exC8Props exCfg exWords 7 =
        rowsHtml exC8Props exCfg exWords 7 "Student Copy" ++
          rowsHtml exC8Props exCfg exWords 7 "Office Copy" ∧
      rowsHtml exC8Props exCfg exWords 7 "Student Copy" =
        rowsHtmlPre exCfg ++ "Student Copy" ++ rowsHtmlPost exC8Props exCfg exWords 7 ∧
      rowsHtml exC8Props exCfg exWords 7 "Office Copy" =
        rowsHtmlPre exCfg ++ "Office Copy" ++ rowsHtmlPost exC8Props exCfg exWords 7 := by
  refine ⟨by with_unfolding_all rfl, by with_unfolding_all rfl,
    by set_option maxRecDepth 100000 in with_unfolding_all rfl,
    by with_unfolding_all rfl, ?_, rfl, rfl⟩
  set_option maxRecDepth 100000 in with_unfolding_all rfl

/-- **C2, counterexample.**  A valid distribution, present transaction and
student, no modal serial, and a failed allocation (`allocResp = none`):
`handlePrint` still produces a printed artifact — the claim that no
receipt artifact is produced without a persisted serial is false.  The
props handed to the renderer carry `serial = none`, and `buildPlainHtml`
renders the padded client-side fallback (`0007` for counter value `7`). -/
theorem handlePrint_prints_without_serial_cex :
    handlePrint 100 (exTeachingOnly 100) (some exC2Tx) (some exStudent) none none none none
        exCfg exWords 7 ≠ none ∧
      (handlePrintProps (exTeachingOnly 100) exC2Tx exStudent none none none none
          exCfg).serial = none ∧
      serialStrOf
        (handlePrintProps (exTeachingOnly 100) exC2Tx exStudent none none none none exCfg)
        7 = "0007" := by
  refine ⟨?_, rfl, by with_unfolding_all rfl⟩
  with_unfolding_all decide

/-- **C2 (amended).**  When no persisted serial is obtained — the modal
holds none and the allocation request yields none — the print path does
not surface an error: `handlePrint` still calls `printReceipt`, producing
the artifact, with `serial = none` in the props, and the rendered serial
falls back to the zero-padded client-side counter value. -/
theorem handlePrint_falls_back_without_serial (target : ℚ) (amts : Cat → ℚ)
    (tx : ClientFeeTx) (st : StudentSnap) (yearly paid : Option ℚ)
    (cfg : SchoolConfig) (words : ℚ → String) (ns : ℕ)
    (hv : validB target amts = true) :
    handlePrint target amts (some tx) (some st) none none yearly paid cfg words ns =
        some (printArtifact (handlePrintProps amts tx st none none yearly paid cfg)
          cfg words ns (some 1)) ∧
      (handlePrintProps amts tx st none none yearly paid cfg).serial = none ∧
      serialStrOf (handlePrintProps amts tx st none none yearly paid cfg) ns =
        padStart (toString ns) 4 '0' := by
  refine ⟨?_, rfl, rfl⟩
  simp [handlePrint, hv]

/-- Witness for C2 (amended) at the concrete failed-allocation state. -/
theorem handlePrint_falls_back_without_serial_witness :
    validB 100 (exTeachingOnly 100) = true ∧
      (handlePrint 100 (exTeachingOnly 100) (some exC2Tx) (some exStudent) none none none none
          exCfg exWords 7 =
          some (printArtifact
            (handlePrintProps (exTeachingOnly 100) exC2Tx exStudent none none none none exCfg)
            exCfg exWords 7 (some 1)) ∧
        (handlePrintProps (exTeachingOnly 100) exC2Tx exStudent none none none none
            exCfg).serial = none ∧
        serialStrOf
          (handlePrintProps (exTeachingOnly 100) exC2Tx exStudent none none none none exCfg)
          7 = padStart (toString 7) 4 '0') :=
  ⟨by with_unfolding_all rfl,
    handlePrint_falls_back_without_serial 100 (exTeachingOnly 100) exC2Tx exStudent none none
      exCfg exWords 7 (by with_unfolding_all rfl)⟩

/-- **C9.**  Every record the fee-listing endpoint returns carries no
receipt serial — the SELECT list and the mapped object omit
`receipt_serial` — so the modal, whose serial state starts from
`transaction.receiptSerial`, requests allocation on print
(`serialToUse == null`). -/
theorem apiFees_no_serial (rows : List DbFeeRow) (t : ClientFeeTx) (ht : t ∈ apiFees rows) :
    t.receiptSerial = none ∧
      handlePrintRequestsAllocation (modalInitialSerial t) = true := by
  obtain ⟨r, -, rfl⟩ := List.mem_map.mp ht
  exact ⟨rfl, rfl⟩

/-- Witness for C9: a database row whose stored serial is `7` still maps
to a record with no serial. -/
theorem apiFees_no_serial_witness :
    exMappedTx ∈ apiFees [exDbRow] ∧
      (exMappedTx.receiptSerial = none ∧
        handlePrintRequestsAllocation (modalInitialSerial exMappedTx) = true) :=
  ⟨by with_unfolding_all decide,
    apiFees_no_serial [exDbRow] exMappedTx (by with_unfolding_all decide)⟩

end ERP
